import Mathlib

/-!
Verification of the cache-containment repository core:
the application-side connection pool (src/db/pool.py) and the
load-coalescing cache (src/cache/cache.py).

The pool and the cache admission gate are concurrent objects; they are
embedded as small-step transition systems whose atomic steps are the
individual counter/semaphore mutations of the Python code (each mutation
happens under the component lock or is an atomic semaphore operation on
the asyncio event loop).  Sequential operations (cache get/clear, handle
release) are embedded as pure functions.
-/

/-
Model of `ConnectionPool` (src/db/pool.py).

A state of the transition system records the pool's observable counters
(`active`, `waiting`, `timeout_count` — `active` and `waiting` are
modelled as integers so that "never goes negative" is a contentful
statement), the internal value of the `asyncio.Semaphore`, and how many
in-flight tasks sit at each program location of `acquire` / `_release`:

 - `blockedOnSem`       : after `waiting += 1` (line 75), blocked in
                          `semaphore.acquire()` (lines 86/89);
 - `semHeldPreFinally`  : semaphore acquired, before the `finally`
                          block's `waiting -= 1` (line 109);
 - `preActiveInc`       : `waiting` decremented, before `active += 1`
                          (line 113);
 - `timedOutPreFinally` : `asyncio.TimeoutError` caught and
                          `timeout_count += 1` executed (line 92),
                          before the `finally` block runs;
 - `holders`            : tasks holding a returned, unreleased handle;
 - `releasingPreSem`    : inside `_release`, after `active -= 1`
                          (line 127), before `semaphore.release()`
                          (line 130);
 - `failedTimeouts`     : acquire calls that ended by raising
                          `PoolTimeout` (line 103).
-/
structure ConnectionPool where
  max_connections : Nat
  sem : Nat
  active : Int
  waiting : Int
  timeout_count : Nat
  blockedOnSem : Nat
  semHeldPreFinally : Nat
  preActiveInc : Nat
  timedOutPreFinally : Nat
  holders : Nat
  releasingPreSem : Nat
  failedTimeouts : Nat
deriving DecidableEq, Repr

/-- Constructor `ConnectionPool.__init__` (pool.py lines 39-48): stores
`max_connections` with no positivity validation and creates the semaphore
with that initial value; all counters start at zero. -/
def initPool (max_connections : Nat) : ConnectionPool :=
  { max_connections := max_connections
    sem := max_connections
    active := 0
    waiting := 0
    timeout_count := 0
    blockedOnSem := 0
    semHeldPreFinally := 0
    preActiveInc := 0
    timedOutPreFinally := 0
    holders := 0
    releasingPreSem := 0
    failedTimeouts := 0 }

/-- A task enters `acquire`: under `_lock`, `waiting += 1` (line 75),
then it blocks on `semaphore.acquire()`. -/
def stepStartAcquire (s : ConnectionPool) : ConnectionPool :=
  { s with waiting := s.waiting + 1, blockedOnSem := s.blockedOnSem + 1 }

/-- A blocked task obtains the semaphore (line 86 or 89 succeeds):
atomically decrements the semaphore value. -/
def stepSemAcquire (s : ConnectionPool) : ConnectionPool :=
  { s with sem := s.sem - 1
           blockedOnSem := s.blockedOnSem - 1
           semHeldPreFinally := s.semHeldPreFinally + 1 }

/-- The deadline of a blocked task elapses first: `asyncio.wait_for`
cancels the semaphore wait (the semaphore value is untouched) and the
handler runs `timeout_count += 1` under `_lock` (line 92). -/
def stepTimeoutFire (s : ConnectionPool) : ConnectionPool :=
  { s with timeout_count := s.timeout_count + 1
           blockedOnSem := s.blockedOnSem - 1
           timedOutPreFinally := s.timedOutPreFinally + 1 }

/-- The `finally` block on the success path: `waiting -= 1` (line 109). -/
def stepFinallySuccess (s : ConnectionPool) : ConnectionPool :=
  { s with waiting := s.waiting - 1
           semHeldPreFinally := s.semHeldPreFinally - 1
           preActiveInc := s.preActiveInc + 1 }

/-- The `finally` block on the timeout path: `waiting -= 1` (line 109),
after which the `PoolTimeout` exception propagates to the caller. -/
def stepFinallyTimeout (s : ConnectionPool) : ConnectionPool :=
  { s with waiting := s.waiting - 1
           timedOutPreFinally := s.timedOutPreFinally - 1
           failedTimeouts := s.failedTimeouts + 1 }

/-- Success epilogue: `active += 1` under `_lock` (line 113) and the
handle `_PoolConnection(self)` is returned (line 123). -/
def stepIncActive (s : ConnectionPool) : ConnectionPool :=
  { s with active := s.active + 1
           preActiveInc := s.preActiveInc - 1
           holders := s.holders + 1 }

/-- A holder calls `handle.release()` for the first time, entering
`_release`: `active -= 1` under `_lock` (line 127). -/
def stepStartRelease (s : ConnectionPool) : ConnectionPool :=
  { s with active := s.active - 1
           holders := s.holders - 1
           releasingPreSem := s.releasingPreSem + 1 }

/-- The releasing task runs `semaphore.release()` (line 130), returning
the slot to the pool. -/
def stepSemRelease (s : ConnectionPool) : ConnectionPool :=
  { s with sem := s.sem + 1, releasingPreSem := s.releasingPreSem - 1 }

/-- One atomic step of the pool transition system; the guards record
which program locations must be occupied (and, for the semaphore, that a
permit is available) for the step to fire. -/
inductive PoolStep : ConnectionPool → ConnectionPool → Prop where
  | startAcquire (s : ConnectionPool) : PoolStep s (stepStartAcquire s)
  | semAcquire (s : ConnectionPool) (h1 : 0 < s.sem) (h2 : 0 < s.blockedOnSem) :
      PoolStep s (stepSemAcquire s)
  | timeoutFire (s : ConnectionPool) (h : 0 < s.blockedOnSem) :
      PoolStep s (stepTimeoutFire s)
  | finallySuccess (s : ConnectionPool) (h : 0 < s.semHeldPreFinally) :
      PoolStep s (stepFinallySuccess s)
  | finallyTimeout (s : ConnectionPool) (h : 0 < s.timedOutPreFinally) :
      PoolStep s (stepFinallyTimeout s)
  | incActive (s : ConnectionPool) (h : 0 < s.preActiveInc) :
      PoolStep s (stepIncActive s)
  | startRelease (s : ConnectionPool) (h : 0 < s.holders) :
      PoolStep s (stepStartRelease s)
  | semRelease (s : ConnectionPool) (h : 0 < s.releasingPreSem) :
      PoolStep s (stepSemRelease s)

/-- States reachable by interleaving any number of acquire/release
tasks, starting from a given initial state. -/
inductive PoolReachable (init : ConnectionPool) : ConnectionPool → Prop where
  | refl : PoolReachable init init
  | step {s t : ConnectionPool} (hs : PoolReachable init s) (h : PoolStep s t) :
      PoolReachable init t

/-- Inductive invariant of the pool: `active` equals the number of
outstanding handles, the semaphore permits plus all tasks between
semaphore acquisition and semaphore release account for the whole
capacity, and `waiting` counts exactly the tasks between the
`waiting += 1` and `waiting -= 1` lines. -/
def PoolInv (s : ConnectionPool) : Prop :=
  s.active = (s.holders : Int) ∧
  s.sem + s.semHeldPreFinally + s.preActiveInc + s.holders + s.releasingPreSem
    = s.max_connections ∧
  s.waiting =
    ((s.blockedOnSem + s.semHeldPreFinally + s.timedOutPreFinally : Nat) : Int)

lemma poolInv_init (c : Nat) : PoolInv (initPool c) := by
  simp [PoolInv, initPool]

lemma poolStep_max_connections {s t : ConnectionPool} (h : PoolStep s t) :
    t.max_connections = s.max_connections := by
  cases h <;>
    simp [stepStartAcquire, stepSemAcquire, stepTimeoutFire, stepFinallySuccess,
      stepFinallyTimeout, stepIncActive, stepStartRelease, stepSemRelease]

lemma poolInv_step {s t : ConnectionPool} (hinv : PoolInv s) (h : PoolStep s t) :
    PoolInv t := by
  obtain ⟨h1, h2, h3⟩ := hinv
  cases h <;>
    · simp only [PoolInv, stepStartAcquire, stepSemAcquire, stepTimeoutFire,
        stepFinallySuccess, stepFinallyTimeout, stepIncActive, stepStartRelease,
        stepSemRelease] at *
      refine ⟨?_, ?_, ?_⟩ <;> omega

lemma poolInv_reachable {c : Nat} {s : ConnectionPool}
    (h : PoolReachable (initPool c) s) : PoolInv s ∧ s.max_connections = c := by
  induction h with
  | refl => exact ⟨poolInv_init c, rfl⟩
  | step hs hstep ih =>
      exact ⟨poolInv_step ih.1 hstep, (poolStep_max_connections hstep).trans ih.2⟩

/-- C1: for every sequence of acquire and release calls on a pool
constructed with positive capacity, the `active` counter never exceeds
the capacity and never goes negative: `0 ≤ active ≤ capacity` holds in
every reachable state. -/
theorem C1_active_bounded (c : Nat) (hc : 0 < c) (s : ConnectionPool)
    (h : PoolReachable (initPool c) s) : 0 ≤ s.active ∧ s.active ≤ (c : Int) := by
  obtain ⟨⟨h1, h2, h3⟩, hcap⟩ := poolInv_reachable h
  omega

/-- Witness for C1 at capacity 1 and the initial state. -/
theorem C1_active_bounded_witness :
    0 ≤ (initPool 1).active ∧ (initPool 1).active ≤ (1 : Int) :=
  C1_active_bounded 1 (by decide) (initPool 1) PoolReachable.refl

/-- The complete execution of one `acquire` call whose deadline elapses
before a slot becomes free, with no interleaved steps of other tasks:
`waiting += 1`, then the timeout handler (`timeout_count += 1`), then the
`finally` block (`waiting -= 1`) and the `PoolTimeout` raise. -/
def acquireTimeoutPath (s : ConnectionPool) : ConnectionPool :=
  stepFinallyTimeout (stepTimeoutFire (stepStartAcquire s))

/-- C3: an `acquire` call with a finite deadline that elapses before a
slot becomes free is a sequence of three legal steps of the pool system
whose net effect is to increment `timeout_count` by exactly 1 and to end
the call raising `PoolTimeout` (one more `failedTimeouts`), while
`active`, `waiting`, the semaphore and the set of outstanding handles
return to exactly the values they would have had absent that call. -/
theorem C3_timeout_restores_state (s : ConnectionPool) :
    PoolStep s (stepStartAcquire s) ∧
    PoolStep (stepStartAcquire s) (stepTimeoutFire (stepStartAcquire s)) ∧
    PoolStep (stepTimeoutFire (stepStartAcquire s)) (acquireTimeoutPath s) ∧
    acquireTimeoutPath s =
      { s with timeout_count := s.timeout_count + 1
               failedTimeouts := s.failedTimeouts + 1 } := by
  refine ⟨PoolStep.startAcquire s, PoolStep.timeoutFire _ ?_,
    PoolStep.finallyTimeout _ ?_, ?_⟩
  · simp [stepStartAcquire]
  · simp [stepStartAcquire, stepTimeoutFire]
  · simp only [acquireTimeoutPath, stepStartAcquire, stepTimeoutFire,
      stepFinallyTimeout]
    congr 1 <;> omega

/-
Model of `_PoolConnection` (pool.py lines 139-157): a handle carries a
one-shot `_released` guard flag; `release` forwards to the pool's
`_release` only on the first call.
-/
structure PoolConnection where
  released : Bool
deriving DecidableEq, Repr

/-- Effect of `ConnectionPool._release` (pool.py lines 125-130) run to
completion: `active -= 1` under `_lock`, then `semaphore.release()`. -/
def poolRelease (s : ConnectionPool) : ConnectionPool :=
  stepSemRelease (stepStartRelease s)

/-- Method `_PoolConnection.release` (pool.py lines 148-151): if the
guard flag is set this is a no-op, otherwise it sets the flag and runs
the pool's `_release`. -/
def PoolConnection.release (h : PoolConnection) (s : ConnectionPool) :
    PoolConnection × ConnectionPool :=
  if h.released then (h, s) else (⟨true⟩, poolRelease s)

/-- One call of `release` on a handle/pool pair. -/
def releaseStep (p : PoolConnection × ConnectionPool) :
    PoolConnection × ConnectionPool :=
  PoolConnection.release p.1 p.2

lemma releaseStep_idem (p : PoolConnection × ConnectionPool) :
    releaseStep (releaseStep p) = releaseStep p := by
  obtain ⟨⟨b⟩, s⟩ := p
  cases b <;> simp [releaseStep, PoolConnection.release]

/-- C8: calling `release` on a handle twice or more has the same
observable effect on the handle and the whole pool state (`active`,
`waiting`, `timeout_count`, free semaphore slots) as calling it exactly
once. -/
theorem C8_release_idempotent (n : Nat) (h : PoolConnection) (s : ConnectionPool) :
    releaseStep^[n + 1] (h, s) = releaseStep (h, s) := by
  induction n with
  | zero => simp
  | succ n ih =>
      calc releaseStep^[n + 1 + 1] (h, s)
          = releaseStep (releaseStep^[n + 1] (h, s)) := by
            rw [Function.iterate_succ_apply']
        _ = releaseStep (releaseStep (h, s)) := by rw [ih]
        _ = releaseStep (h, s) := releaseStep_idem (h, s)

/-- C10: the constructor performs no positivity validation: `initPool 0`
is a well-formed pool of capacity 0; in every reachable state of such a
pool the semaphore has no permit (so the success branch of `acquire` is
never enabled and no task ever passes the semaphore), `active` stays 0,
and an `acquire` call with a finite deadline takes the timeout path,
raising `PoolTimeout` and incrementing `timeout_count` by 1 while
`active` remains 0. -/
theorem C10_zero_capacity_pool (s : ConnectionPool)
    (h : PoolReachable (initPool 0) s) :
    (initPool 0).max_connections = 0 ∧
    s.sem = 0 ∧ s.active = 0 ∧ s.holders = 0 ∧
    s.semHeldPreFinally = 0 ∧ s.preActiveInc = 0 ∧
    (acquireTimeoutPath s).active = 0 ∧
    (acquireTimeoutPath s).timeout_count = s.timeout_count + 1 ∧
    (acquireTimeoutPath s).failedTimeouts = s.failedTimeouts + 1 := by
  obtain ⟨⟨h1, h2, h3⟩, hcap⟩ := poolInv_reachable h
  have hsem : s.sem = 0 := by omega
  have hhold : s.holders = 0 := by omega
  have hact : s.active = 0 := by omega
  refine ⟨rfl, hsem, hact, hhold, by omega, by omega, ?_, ?_, ?_⟩ <;>
    simp [acquireTimeoutPath, stepStartAcquire, stepTimeoutFire,
      stepFinallyTimeout, hact]

/-- Witness for C10 at the initial state of the capacity-0 pool. -/
theorem C10_zero_capacity_pool_witness :
    (initPool 0).max_connections = 0 ∧
    (initPool 0).sem = 0 ∧ (initPool 0).active = 0 ∧ (initPool 0).holders = 0 ∧
    (initPool 0).semHeldPreFinally = 0 ∧ (initPool 0).preActiveInc = 0 ∧
    (acquireTimeoutPath (initPool 0)).active = 0 ∧
    (acquireTimeoutPath (initPool 0)).timeout_count = (initPool 0).timeout_count + 1 ∧
    (acquireTimeoutPath (initPool 0)).failedTimeouts = (initPool 0).failedTimeouts + 1 :=
  C10_zero_capacity_pool (initPool 0) PoolReachable.refl

/-
Model of `Cache` (src/cache/cache.py).

The store `self._store : dict[str, Any]` is embedded as an association
list with first-match lookup; Python dict insertion of a fresh key
appends it.  The Python `get` returns heterogeneous three-element lists
`[value, 1, 0]` (hit) and `[value, 0, 1]` (miss) — lines 71 and 109 —
so a returned component is either a value or a small integer.
-/
inductive CVal (α : Type) where
  | v : α → CVal α
  | n : Nat → CVal α
deriving DecidableEq, Repr

/-- State of a `Cache` instance: the store and the `hits` / `misses`
counters (cache.py lines 40-46). -/
structure Cache (α : Type) where
  store : List (String × α)
  hits : Nat
  misses : Nat
deriving DecidableEq, Repr

/-- Freshly constructed cache: empty store, zero counters. -/
def initCache (α : Type) : Cache α := ⟨[], 0, 0⟩

/-- Membership / indexing of the store dict: `key in self._store` and
`self._store[key]`. -/
def lookupStore {α : Type} : List (String × α) → String → Option α
  | [], _ => none
  | (k, v) :: rest, key => if k = key then some v else lookupStore rest key

/-- The guarded fill of cache.py lines 100-102, applied to whatever the
store holds at the instant the exclusive lock is taken: write
`key → value` only if `key` is still absent. -/
def fillStore {α : Type} (σ : List (String × α)) (key : String) (v : α) :
    List (String × α) :=
  match lookupStore σ key with
  | some _ => σ
  | none => σ ++ [(key, v)]

/-- Completion of a miss after the loader returned `v` (cache.py lines
99-109): the guarded fill under the lock, and the returned list
`[value, 0, 1]` built from this call's own local `value` — not from the
(possibly different) stored one. -/
def missComplete {α : Type} (σ : List (String × α)) (key : String) (v : α) :
    List (String × α) × List (CVal α) :=
  (fillStore σ key v, [CVal.v v, CVal.n 0, CVal.n 1])

/-- Result of one `Cache.get` call: the value returned to the caller (or
the loader's error, propagated), the cache state after the call, and
whether the loader was invoked. -/
structure GetResult (α ε : Type) where
  result : Except ε (List (CVal α))
  state : Cache α
  usedLoader : Bool

/-- Method `Cache.get` (cache.py lines 61-109) run to completion without
interference, with the opaque loader represented by its outcome.  The
contained policy differs from speed-first only by the admission-gate
wait around the loader call (lines 84-97), which does not change the
sequential result; the gate itself is modelled separately below. -/
def Cache.get {α ε : Type} (s : Cache α) (key : String)
    (loader : Except ε α) : GetResult α ε :=
  match lookupStore s.store key with
  | some v =>
      { result := Except.ok [CVal.v v, CVal.n 1, CVal.n 0]
        state := { s with hits := s.hits + 1 }
        usedLoader := false }
  | none =>
      let s1 : Cache α := { s with misses := s.misses + 1 }
      match loader with
      | Except.error e =>
          { result := Except.error e, state := s1, usedLoader := true }
      | Except.ok v =>
          let fill := missComplete s1.store key v
          { result := Except.ok fill.2
            state := { s1 with store := fill.1 }
            usedLoader := true }

/-- Method `Cache.clear` (cache.py lines 112-115): read `len(store)`,
empty the store, return the size.  `hits` / `misses` are untouched. -/
def Cache.clear {α : Type} (s : Cache α) : Nat × Cache α :=
  (s.store.length, { s with store := [] })

lemma lookupStore_append_some {α : Type} {σ : List (String × α)} {k : String}
    {w : α} (h : lookupStore σ k = some w) (l : List (String × α)) :
    lookupStore (σ ++ l) k = some w := by
  induction σ with
  | nil => simp [lookupStore] at h
  | cons p rest ih =>
      obtain ⟨k1, v1⟩ := p
      by_cases hk : k1 = k
      · simpa [lookupStore, hk] using h
      · simp only [lookupStore, hk, if_false, List.cons_append] at h ⊢
        exact ih h

lemma lookupStore_append_self {α : Type} {σ : List (String × α)} {k : String}
    (h : lookupStore σ k = none) (v : α) :
    lookupStore (σ ++ [(k, v)]) k = some v := by
  induction σ with
  | nil => simp [lookupStore]
  | cons p rest ih =>
      obtain ⟨k1, v1⟩ := p
      by_cases hk : k1 = k
      · simp [lookupStore, hk] at h
      · simp only [lookupStore, hk, if_false, List.cons_append] at h ⊢
        exact ih h

lemma lookupStore_fillStore_preserve {α : Type} {σ : List (String × α)}
    {k : String} {w : α} (h : lookupStore σ k = some w) (k2 : String) (v : α) :
    lookupStore (fillStore σ k2 v) k = some w := by
  unfold fillStore
  cases hl : lookupStore σ k2 with
  | some u => exact h
  | none => exact lookupStore_append_some h _

lemma lookupStore_fillStore_self {α : Type} {σ : List (String × α)}
    {k : String} (h : lookupStore σ k = none) (v : α) :
    lookupStore (fillStore σ k v) k = some v := by
  unfold fillStore
  rw [h]
  exact lookupStore_append_self h v

lemma get_preserves_mapping {α ε : Type} {s : Cache α} {k : String} {w : α}
    (h : lookupStore s.store k = some w) (k2 : String) (loader : Except ε α) :
    lookupStore ((Cache.get s k2 loader).state).store k = some w := by
  unfold Cache.get
  cases hl : lookupStore s.store k2 with
  | some u => exact h
  | none =>
      cases loader with
      | error e => exact h
      | ok v => exact lookupStore_fillStore_preserve h k2 v

/-- C5: after the loader completes in a miss, the pair `key → value` is
written only if `key` is still absent from the store at the instant the
lock is taken (an earlier concurrent fill is never overwritten), and the
call returns its own locally computed value with the miss-shaped result
regardless of whether that value became the stored one. -/
theorem C5_first_writer_wins {α ε : Type} (σ : List (String × α)) (k : String)
    (v w : α) (s : Cache α) :
    (lookupStore σ k = some w →
      (missComplete σ k v).1 = σ ∧ lookupStore (missComplete σ k v).1 k = some w) ∧
    (lookupStore σ k = none →
      lookupStore (missComplete σ k v).1 k = some v) ∧
    (missComplete σ k v).2 = [CVal.v v, CVal.n 0, CVal.n 1] ∧
    (lookupStore s.store k = none →
      (Cache.get s k (Except.ok v) : GetResult α ε).result =
        Except.ok [CVal.v v, CVal.n 0, CVal.n 1] ∧
      (Cache.get s k (Except.ok v) : GetResult α ε).state.store =
        fillStore s.store k v) := by
  refine ⟨fun h => ⟨?_, ?_⟩, fun h => ?_, rfl, fun h => ⟨?_, ?_⟩⟩
  · simp [missComplete, fillStore, h]
  · simpa [missComplete] using lookupStore_fillStore_preserve h k v
  · simpa [missComplete] using lookupStore_fillStore_self h v
  · unfold Cache.get
    rw [h]
    rfl
  · unfold Cache.get
    rw [h]
    rfl

/-- Witness for C5: a store already holding the key keeps its earlier
value, an empty store receives the new one. -/
theorem C5_first_writer_wins_witness :
    ((lookupStore [("k", (7 : Nat))] "k" = some 7 →
      (missComplete [("k", (7 : Nat))] "k" 5).1 = [("k", 7)] ∧
      lookupStore (missComplete [("k", (7 : Nat))] "k" 5).1 "k" = some 7) ∧
    (lookupStore [("k", (7 : Nat))] "k" = none →
      lookupStore (missComplete [("k", (7 : Nat))] "k" 5).1 "k" = some 5) ∧
    (missComplete [("k", (7 : Nat))] "k" 5).2 =
      [CVal.v 5, CVal.n 0, CVal.n 1] ∧
    (lookupStore (initCache Nat).store "k" = none →
      (Cache.get (initCache Nat) "k" (Except.ok 5) : GetResult Nat Unit).result =
        Except.ok [CVal.v 5, CVal.n 0, CVal.n 1] ∧
      (Cache.get (initCache Nat) "k" (Except.ok 5) : GetResult Nat Unit).state.store =
        fillStore (initCache Nat).store "k" 5)) ∧
    lookupStore [("k", (7 : Nat))] "k" = some 7 ∧
    lookupStore (initCache Nat).store "k" = none :=
  ⟨C5_first_writer_wins [("k", 7)] "k" 5 7 (initCache Nat), by decide, rfl⟩

/-- C6: when the loader of a miss fails, the error propagates to the
caller of `get` unmodified, no value is stored for the key, `misses` is
incremented by exactly 1 and `hits` and the store are unchanged. -/
theorem C6_loader_failure_propagates {α ε : Type} (s : Cache α) (k : String)
    (e : ε) (h : lookupStore s.store k = none) :
    (Cache.get s k (Except.error e : Except ε α)).result = Except.error e ∧
    (Cache.get s k (Except.error e : Except ε α)).state.store = s.store ∧
    (Cache.get s k (Except.error e : Except ε α)).state.misses = s.misses + 1 ∧
    (Cache.get s k (Except.error e : Except ε α)).state.hits = s.hits ∧
    (Cache.get s k (Except.error e : Except ε α)).usedLoader = true := by
  unfold Cache.get
  rw [h]
  exact ⟨rfl, rfl, rfl, rfl, rfl⟩

/-- Witness for C6 on the empty cache with a concrete failing loader. -/
theorem C6_loader_failure_propagates_witness :
    (Cache.get (initCache Nat) "k" (Except.error 42 : Except Nat Nat)).result =
      Except.error 42 ∧
    (Cache.get (initCache Nat) "k" (Except.error 42 : Except Nat Nat)).state.store =
      (initCache Nat).store ∧
    (Cache.get (initCache Nat) "k" (Except.error 42 : Except Nat Nat)).state.misses =
      (initCache Nat).misses + 1 ∧
    (Cache.get (initCache Nat) "k" (Except.error 42 : Except Nat Nat)).state.hits =
      (initCache Nat).hits ∧
    (Cache.get (initCache Nat) "k" (Except.error 42 : Except Nat Nat)).usedLoader =
      true :=
  C6_loader_failure_propagates (initCache Nat) "k" 42 rfl

/-- C7: `clear` returns exactly the number of entries present, leaves
the store empty and `hits` / `misses` unchanged; a `get` immediately
afterwards is a miss for every key (in particular for previously cached
ones), and clearing an already-empty cache returns 0 and leaves the
state unchanged.  The method is a synchronous block with no suspension
point, hence atomic with respect to the event loop. -/
theorem C7_clear_semantics {α ε : Type} (s : Cache α) :
    (Cache.clear s).1 = s.store.length ∧
    (Cache.clear s).2.store = [] ∧
    (Cache.clear s).2.hits = s.hits ∧
    (Cache.clear s).2.misses = s.misses ∧
    (∀ (k : String), lookupStore (Cache.clear s).2.store k = none) ∧
    (∀ (k : String) (loader : Except ε α),
      (Cache.get (Cache.clear s).2 k loader).usedLoader = true ∧
      (Cache.get (Cache.clear s).2 k loader).state.misses = s.misses + 1) ∧
    (s.store = [] → (Cache.clear s).1 = 0 ∧ (Cache.clear s).2 = s) := by
  refine ⟨rfl, rfl, rfl, rfl, fun k => rfl, fun k loader => ?_, fun h => ?_⟩
  · cases loader <;> exact ⟨rfl, rfl⟩
  · obtain ⟨σ, hh, hm⟩ := s
    cases h
    exact ⟨rfl, rfl⟩

/-- Witness for C7 on a one-entry cache and on the empty cache. -/
theorem C7_clear_semantics_witness :
    (Cache.clear (⟨[("a", 3)], 2, 5⟩ : Cache Nat)).1 = 1 ∧
    (Cache.clear (⟨[("a", 3)], 2, 5⟩ : Cache Nat)).2.store = [] ∧
    (Cache.clear (⟨[("a", 3)], 2, 5⟩ : Cache Nat)).2.hits = 2 ∧
    (Cache.clear (⟨[("a", 3)], 2, 5⟩ : Cache Nat)).2.misses = 5 ∧
    (Cache.get (Cache.clear (⟨[("a", 3)], 2, 5⟩ : Cache Nat)).2 "a"
      (Except.ok 3 : Except Unit Nat)).usedLoader = true ∧
    (Cache.clear (initCache Nat)).1 = 0 ∧
    (Cache.clear (initCache Nat)).2 = initCache Nat := by
  have h1 := C7_clear_semantics (α := Nat) (ε := Unit) ⟨[("a", 3)], 2, 5⟩
  have h2 := C7_clear_semantics (α := Nat) (ε := Unit) (initCache Nat)
  exact ⟨h1.1, h1.2.1, h1.2.2.1, h1.2.2.2.1, (h1.2.2.2.2.2.1 "a" (Except.ok 3)).1,
    (h2.2.2.2.2.2.2 rfl).1, (h2.2.2.2.2.2.2 rfl).2⟩

/-- C4: for a key absent from the store, a `get` whose loader succeeds
is a miss: it invokes the loader (exactly once — the embedded `get`
consults the loader outcome once per call), increments `misses` by 1,
returns the miss-shaped result, and stores the value under the key;
afterwards, in any state where the key is still mapped (which every
later `get`, on any key with any loader, preserves — only `clear`
removes entries), a `get` on that key is a hit: it returns the stored
value with the hit-shaped result, increments `hits` by 1, and does not
invoke the loader. -/
theorem C4_first_miss_then_hit {α ε : Type} (s : Cache α) (k : String) (v : α)
    (h : lookupStore s.store k = none) :
    (Cache.get s k (Except.ok v) : GetResult α ε).usedLoader = true ∧
    (Cache.get s k (Except.ok v) : GetResult α ε).result =
      Except.ok [CVal.v v, CVal.n 0, CVal.n 1] ∧
    (Cache.get s k (Except.ok v) : GetResult α ε).state.misses = s.misses + 1 ∧
    (Cache.get s k (Except.ok v) : GetResult α ε).state.hits = s.hits ∧
    lookupStore (Cache.get s k (Except.ok v) : GetResult α ε).state.store k
      = some v ∧
    (∀ (t : Cache α), lookupStore t.store k = some v →
      (∀ (k2 : String) (loader : Except ε α),
        lookupStore ((Cache.get t k2 loader).state).store k = some v) ∧
      (∀ (loader : Except ε α),
        (Cache.get t k loader).usedLoader = false ∧
        (Cache.get t k loader).result =
          Except.ok [CVal.v v, CVal.n 1, CVal.n 0] ∧
        (Cache.get t k loader).state.hits = t.hits + 1 ∧
        (Cache.get t k loader).state.misses = t.misses ∧
        (Cache.get t k loader).state.store = t.store)) := by
  refine ⟨?_, ?_, ?_, ?_, ?_, fun t ht => ⟨fun k2 loader =>
    get_preserves_mapping ht k2 loader, fun loader => ?_⟩⟩
  · unfold Cache.get; rw [h]
  · unfold Cache.get; rw [h]; rfl
  · unfold Cache.get; rw [h]
  · unfold Cache.get; rw [h]
  · have : (Cache.get s k (Except.ok v) : GetResult α ε).state.store
        = fillStore s.store k v := by
      unfold Cache.get; rw [h]; rfl
    rw [this]
    exact lookupStore_fillStore_self h v
  · unfold Cache.get
    rw [ht]
    exact ⟨rfl, rfl, rfl, rfl, rfl⟩

/-- Witness for C4 starting from the empty cache with key `k` and loader
value 5. -/
theorem C4_first_miss_then_hit_witness :
    lookupStore (initCache Nat).store "k" = none ∧
    ((Cache.get (initCache Nat) "k" (Except.ok 5) : GetResult Nat Unit).usedLoader
        = true ∧
      (Cache.get (initCache Nat) "k" (Except.ok 5) : GetResult Nat Unit).result =
        Except.ok [CVal.v 5, CVal.n 0, CVal.n 1] ∧
      (Cache.get (initCache Nat) "k" (Except.ok 5) :
        GetResult Nat Unit).state.misses = (initCache Nat).misses + 1 ∧
      (Cache.get (initCache Nat) "k" (Except.ok 5) :
        GetResult Nat Unit).state.hits = (initCache Nat).hits ∧
      lookupStore (Cache.get (initCache Nat) "k" (Except.ok 5) :
        GetResult Nat Unit).state.store "k" = some 5 ∧
      (∀ (t : Cache Nat), lookupStore t.store "k" = some 5 →
        (∀ (k2 : String) (loader : Except Unit Nat),
          lookupStore ((Cache.get t k2 loader).state).store "k" = some 5) ∧
        (∀ (loader : Except Unit Nat),
          (Cache.get t "k" loader).usedLoader = false ∧
          (Cache.get t "k" loader).result =
            Except.ok [CVal.v 5, CVal.n 1, CVal.n 0] ∧
          (Cache.get t "k" loader).state.hits = t.hits + 1 ∧
          (Cache.get t "k" loader).state.misses = t.misses ∧
          (Cache.get t "k" loader).state.store = t.store))) :=
  ⟨rfl, C4_first_miss_then_hit (initCache Nat) "k" 5 rfl⟩

/-- Counterexample to C9 as stated: at the concrete input (empty cache,
key `k`, loader returning 5) the value handed back by `get` is the
three-element list `[value, 0, 1]` of cache.py line 109 — value plus
two 0/1 integer flags — not a two-component pair with a boolean
`wasHit` field. -/
theorem C9_counterexample :
    (Cache.get (initCache Nat) "k" (Except.ok 5) : GetResult Nat Unit).result =
      Except.ok [CVal.v 5, CVal.n 0, CVal.n 1] ∧
    [CVal.v (5 : Nat), CVal.n 0, CVal.n 1].length = 3 ∧
    ¬ [CVal.v (5 : Nat), CVal.n 0, CVal.n 1].length = 2 :=
  ⟨rfl, rfl, by decide⟩

/-- C9 amended: every `Cache.get` call returns a three-element list
`[value, hit, miss]` whose flags are the integers 0/1: on the hit path
it is `[storedValue, 1, 0]` (for any loader, which is not consulted) and
on the miss path with loader value `v` it is `[v, 0, 1]`. -/
theorem C9_result_shape {α ε : Type} (s : Cache α) (k : String) (v : α) :
    (lookupStore s.store k = some v →
      ∀ loader : Except ε α, (Cache.get s k loader).result =
        Except.ok [CVal.v v, CVal.n 1, CVal.n 0]) ∧
    (lookupStore s.store k = none →
      (Cache.get s k (Except.ok v) : GetResult α ε).result =
        Except.ok [CVal.v v, CVal.n 0, CVal.n 1]) := by
  constructor
  · intro h loader
    unfold Cache.get
    rw [h]
  · intro h
    unfold Cache.get
    rw [h]
    rfl

/-- Witness for C9 amended on a one-entry cache (hit) and the empty
cache (miss). -/
theorem C9_result_shape_witness :
    (Cache.get (⟨[("k", 7)], 0, 0⟩ : Cache Nat) "k"
      (Except.error () : Except Unit Nat)).result =
        Except.ok [CVal.v 7, CVal.n 1, CVal.n 0] ∧
    (Cache.get (initCache Nat) "k" (Except.ok 7) : GetResult Nat Unit).result =
      Except.ok [CVal.v 7, CVal.n 0, CVal.n 1] :=
  ⟨(C9_result_shape ⟨[("k", 7)], 0, 0⟩ "k" 7).1 (by decide) (Except.error ()),
   (C9_result_shape (initCache Nat) "k" 7).2 rfl⟩

/-
Model of the admission gate of the contained policy (cache.py lines
48-53 and 84-97): `self._load_semaphore = asyncio.Semaphore(G)` shared
across all keys, entered with `async with` around `value = await
loader()`.  A state counts the gate semaphore's permits and the tasks of
concurrent `get` misses at each program location:

 - `loading`      : inside the `async with`, the loader invocation in
                    flight (line 93);
 - `finishedLoad` : loader returned or raised, the `async with` exit has
                    not yet run `semaphore.release()`;
 - `postGate`     : slot released, the task continuing towards the store
                    fill and the `return` (or re-raising the loader's
                    error) — control goes back to the caller only from
                    here.

Any number of concurrent `get` calls may be queued before the gate; a
task can reach `postGate` only through the release step, so a returning
call never holds a slot.
-/
structure AdmissionGate where
  gateCapacity : Nat
  gsem : Nat
  loading : Nat
  finishedLoad : Nat
  postGate : Nat
deriving DecidableEq, Repr

/-- Gate of a freshly constructed contained-policy cache: all permits
free, no loader in flight. -/
def initGate (g : Nat) : AdmissionGate := ⟨g, g, 0, 0, 0⟩

/-- A queued miss task obtains a gate slot (entry of the `async with`,
line 92) and its loader invocation starts. -/
def gateAcquire (s : AdmissionGate) : AdmissionGate :=
  { s with gsem := s.gsem - 1, loading := s.loading + 1 }

/-- The loader invocation of a task finishes, by returning a value or by
raising; the slot is still held. -/
def gateLoaderDone (s : AdmissionGate) : AdmissionGate :=
  { s with loading := s.loading - 1, finishedLoad := s.finishedLoad + 1 }

/-- The `async with` exit releases the slot unconditionally, whether the
loader returned or raised. -/
def gateRelease (s : AdmissionGate) : AdmissionGate :=
  { s with finishedLoad := s.finishedLoad - 1
           gsem := s.gsem + 1
           postGate := s.postGate + 1 }

/-- The task past the gate finishes its `get` call, returning control
(or the loader's error) to the caller. -/
def gateReturn (s : AdmissionGate) : AdmissionGate :=
  { s with postGate := s.postGate - 1 }

/-- One atomic step of the admission-gate system. -/
inductive GateStep : AdmissionGate → AdmissionGate → Prop where
  | acquire (s : AdmissionGate) (h : 0 < s.gsem) : GateStep s (gateAcquire s)
  | loaderDone (s : AdmissionGate) (h : 0 < s.loading) :
      GateStep s (gateLoaderDone s)
  | release (s : AdmissionGate) (h : 0 < s.finishedLoad) :
      GateStep s (gateRelease s)
  | ret (s : AdmissionGate) (h : 0 < s.postGate) : GateStep s (gateReturn s)

/-- Gate states reachable under any interleaving of any number of
concurrent `get` misses, across any keys. -/
inductive GateReachable (init : AdmissionGate) : AdmissionGate → Prop where
  | refl : GateReachable init init
  | step {s t : AdmissionGate} (hs : GateReachable init s) (h : GateStep s t) :
      GateReachable init t

lemma gateInv_reachable {g : Nat} {s : AdmissionGate}
    (h : GateReachable (initGate g) s) :
    s.gsem + s.loading + s.finishedLoad = g ∧ s.gateCapacity = g := by
  induction h with
  | refl => simp [initGate]
  | step hs hstep ih =>
      cases hstep <;>
        · simp only [gateAcquire, gateLoaderDone, gateRelease, gateReturn] at *
          omega

/-- C2: under the contained policy with gate capacity `g`, in every
state reachable by any interleaving of concurrently issued `get` calls
(across any keys) at most `g` loader invocations are in flight; the held
slots are exactly accounted for by tasks whose loader is running or has
just finished inside the `async with`, so a task past the release step —
the only route to returning control to the caller, taken whether the
loader returned or raised — holds no slot. -/
theorem C2_gate_bounds_loaders (g : Nat) (s : AdmissionGate)
    (h : GateReachable (initGate g) s) :
    s.loading ≤ g ∧ s.gsem + s.loading + s.finishedLoad = g := by
  obtain ⟨h1, h2⟩ := gateInv_reachable h
  omega

/-- Witness for C2 at gate capacity 1 and the initial state. -/
theorem C2_gate_bounds_loaders_witness :
    (initGate 1).loading ≤ 1 ∧
    (initGate 1).gsem + (initGate 1).loading + (initGate 1).finishedLoad = 1 :=
  C2_gate_bounds_loaders 1 (initGate 1) GateReachable.refl
